import Mathlib

/-!
Verification of the document-loading and chunking module
(`aimakerspace/text_utils.py`).

Texts, file names and error messages are represented as `List Char`.
Filesystem reads and the pypdf library are modelled by explicit data:
a loader receives, next to its path, the `Target` the path resolves to.
-/

/-- A Python exception as observed by a caller.  The code distinguishes
`ValueError` (which also covers its subclass `UnicodeDecodeError`) from
`ImportError`, because `DocumentLoader` catches only `ValueError`. -/
inductive PyErr
  | valueError (msg : List Char)
  | importError (msg : List Char)
deriving DecidableEq

deriving instance DecidableEq for Except

/-- The message carried by an exception (`str(e)` in Python). -/
def PyErr.msg : PyErr → List Char
  | .valueError m => m
  | .importError m => m

/-- The view pypdf gives of a PDF file: its encryption flag and the text
extracted from each page. -/
structure PdfDoc where
  encrypted : Bool
  pages : List (List Char)
deriving DecidableEq

/-- Contents of one file on disk.  A text file is recorded by the result of
decoding its bytes with the configured encoding (`none` means the bytes are
invalid for that encoding, so reading raises `UnicodeDecodeError`). -/
inductive FileContent
  | txt (decoded : Option (List Char))
  | pdf (doc : PdfDoc)
  | other
deriving DecidableEq

/-- What the filesystem says about the path handed to a loader:
`os.path.isfile` / `os.path.isdir` / neither.  A directory is the list of
files `os.walk` yields over it (recursion flattened, in walk order). -/
inductive Target
  | file (content : FileContent)
  | dir (entries : List (List Char × FileContent))
  | missing
deriving DecidableEq

/-- Python `s.endswith(suffix)` (case-sensitive exact suffix match). -/
def endsWith (s suff : List Char) : Bool :=
  List.isSuffixOf suff s

/-- Python `s.strip()`: remove leading and trailing whitespace. -/
def pyStrip (s : List Char) : List Char :=
  ((s.dropWhile Char.isWhitespace).reverse.dropWhile Char.isWhitespace).reverse

namespace TextFileLoader

/-- `open(path, "r", encoding=...) ; f.read()`: yields the decoded text, or
raises `UnicodeDecodeError` (a `ValueError`) when the bytes do not decode.
Opening a non-text file as text is likewise modelled as a decode failure. -/
def read_text (content : FileContent) : Except PyErr (List Char) :=
  match content with
  | .txt (some s) => .ok s
  | _ => .error (.valueError ("UnicodeDecodeError".toList))

/-- `TextFileLoader.load_file`: appends the file's text to `documents`. -/
def load_file (content : FileContent) : Except PyErr (List (List Char)) :=
  (read_text content).map (fun s => [s])

/-- `TextFileLoader.load_directory`: walks the entries, reading every file
whose name ends in `".txt"`; the first read failure propagates. -/
def load_directory : List (List Char × FileContent) → Except PyErr (List (List Char))
  | [] => .ok []
  | (name, content) :: rest =>
    if endsWith name (".txt".toList) then
      match read_text content with
      | .ok s => (load_directory rest).map (fun ds => s :: ds)
      | .error e => .error e
    else load_directory rest

/-- `TextFileLoader.load`: dispatch on directory / `.txt` file / neither. -/
def load (path : List Char) (t : Target) : Except PyErr (List (List Char)) :=
  match t with
  | .dir entries => load_directory entries
  | .file content =>
    if endsWith path (".txt".toList) then load_file content
    else .error (.valueError ("Provided path is neither a valid directory nor a .txt file.".toList))
  | .missing =>
    .error (.valueError ("Provided path is neither a valid directory nor a .txt file.".toList))

/-- `TextFileLoader.load_documents`: run `load`, return the documents. -/
def load_documents (path : List Char) (t : Target) : Except PyErr (List (List Char)) :=
  load path t

end TextFileLoader

namespace PDFFileLoader

/-- The page loop of `load_file` / `load_directory`: concatenate every page
text that is non-empty after stripping, each followed by `"\n\n"`. -/
def extract_full_text (pages : List (List Char)) : List Char :=
  pages.foldl (fun acc p => if pyStrip p ≠ [] then acc ++ p ++ ('\n' :: '\n' :: []) else acc) []

/-- `PDFFileLoader.load_file`.  The whole body sits inside
`try: ... except Exception as e: raise ValueError("Error reading PDF file {path}: {e}")`,
so every failure—including the loader's own encrypted-PDF `ValueError`—is
re-raised wrapped.  A non-PDF content stands for a pypdf parse failure. -/
def load_file (path : List Char) (content : FileContent) : Except PyErr (List (List Char)) :=
  let attempt : Except PyErr (List (List Char)) :=
    match content with
    | .pdf doc =>
      if doc.encrypted then
        .error (.valueError ("PDF file ".toList ++ path ++ " is password-protected and cannot be read.".toList))
      else
        let full_text := extract_full_text doc.pages
        if pyStrip full_text ≠ [] then .ok [pyStrip full_text]
        else .error (.valueError ("No readable text found in PDF file ".toList ++ path))
    | _ => .error (.valueError ("invalid pdf structure".toList))
  match attempt with
  | .ok ds => .ok ds
  | .error e =>
    .error (.valueError ("Error reading PDF file ".toList ++ path ++ ": ".toList ++ e.msg))

/-- `PDFFileLoader.load_directory`: walks the entries; for each `.pdf` file,
encrypted documents are skipped (with a printed warning, a side effect not
modelled), extraction failures are caught and skipped, and only non-empty
stripped extractions are collected.  It never raises. -/
def load_directory (entries : List (List Char × FileContent)) : List (List Char) :=
  entries.foldl
    (fun docs e =>
      if endsWith e.1 (".pdf".toList) then
        match e.2 with
        | .pdf doc =>
          if doc.encrypted then docs
          else
            let t := pyStrip (extract_full_text doc.pages)
            if t ≠ [] then docs ++ [t] else docs
        | _ => docs
      else docs)
    []

/-- `PDFFileLoader.load`: first the capability check (`PDF_AVAILABLE`,
raising `ImportError` before any path inspection), then dispatch on
directory / `.pdf` file / neither. -/
def load (avail : Bool) (path : List Char) (t : Target) : Except PyErr (List (List Char)) :=
  if avail = false then
    .error (.importError ("pypdf is required to read PDF files. Install it with: pip install pypdf".toList))
  else
    match t with
    | .dir entries => .ok (load_directory entries)
    | .file content =>
      if endsWith path (".pdf".toList) then load_file path content
      else .error (.valueError ("Provided path is neither a valid directory nor a .pdf file.".toList))
    | .missing =>
      .error (.valueError ("Provided path is neither a valid directory nor a .pdf file.".toList))

/-- `PDFFileLoader.load_documents`: run `load`, return the documents. -/
def load_documents (avail : Bool) (path : List Char) (t : Target) : Except PyErr (List (List Char)) :=
  load avail path t

end PDFFileLoader

namespace DocumentLoader

/-- `try: documents.extend(loader.load_documents()) except ValueError: pass` —
a `ValueError` leaves `documents` unchanged; any other exception
(notably `ImportError`) propagates. -/
def extendCaught (docs : List (List Char)) (r : Except PyErr (List (List Char))) :
    Except PyErr (List (List Char)) :=
  match r with
  | .ok ds => .ok (docs ++ ds)
  | .error (.valueError _) => .ok docs
  | .error (.importError m) => .error (.importError m)

/-- `DocumentLoader.load_documents`: file dispatch by extension, directory
mode running both walkers with `except ValueError: pass`, and the final
empty-result check. -/
def load_documents (avail : Bool) (path : List Char) (t : Target) :
    Except PyErr (List (List Char)) :=
  match t with
  | .file content =>
    if endsWith path (".txt".toList) then TextFileLoader.load_documents path (.file content)
    else if endsWith path (".pdf".toList) then PDFFileLoader.load_documents avail path (.file content)
    else .error (.valueError ("Unsupported file type: ".toList ++ path ++ ". Only .txt and .pdf files are supported.".toList))
  | .dir entries =>
    match extendCaught [] (TextFileLoader.load_documents path (.dir entries)) with
    | .error e => .error e
    | .ok docs1 =>
      match extendCaught docs1 (PDFFileLoader.load_documents avail path (.dir entries)) with
      | .error e => .error e
      | .ok docs =>
        if docs.isEmpty then
          .error (.valueError ("No readable .txt or .pdf files found in directory: ".toList ++ path))
        else .ok docs
  | .missing => .error (.valueError ("Path does not exist: ".toList ++ path))

end DocumentLoader

/-- `CharacterTextSplitter`: the two configuration fields together with the
constructor's `assert chunk_size > chunk_overlap` (every instance the code
ever operates on satisfies it). -/
structure CharacterTextSplitter where
  chunk_size : Int
  chunk_overlap : Int
  size_gt_overlap : chunk_overlap < chunk_size

/-- `CharacterTextSplitter.__init__`: the `assert` raises (here: an error
carrying the assertion message) unless `chunk_size > chunk_overlap`;
otherwise the two values are stored. -/
def CharacterTextSplitter.init (chunk_size chunk_overlap : Int) :
    Except (List Char) CharacterTextSplitter :=
  if h : chunk_overlap < chunk_size then .ok ⟨chunk_size, chunk_overlap, h⟩
  else .error ("Chunk size must be greater than chunk overlap".toList)

/-- The loop step `chunk_size - chunk_overlap` (positive by the constructor
invariant). -/
def CharacterTextSplitter.stride (c : CharacterTextSplitter) : Nat :=
  (c.chunk_size - c.chunk_overlap).toNat

/-- Normalize one bound of a Python slice over a sequence of length `n`:
negative bounds count from the end, then both are clamped to `[0, n]`. -/
def pyIdx (n : Nat) (i : Int) : Nat :=
  if i < 0 then ((n : Int) + i).toNat else min i.toNat n

/-- Python `l[a:b]` (step 1). -/
def pySlice (l : List Char) (a b : Int) : List Char :=
  (l.take (pyIdx l.length b)).drop (pyIdx l.length a)

/-- Python `range(0, stop, step)` for a positive `step`: the
`⌈stop / step⌉` multiples of `step` below `stop`. -/
def pyRange (stop step : Nat) : List Nat :=
  (List.range ((stop + step - 1) / step)).map (fun k => k * step)

/-- The chunk emitted at offset `i`: `text[i : i + chunk_size]`. -/
def CharacterTextSplitter.chunkAt (c : CharacterTextSplitter) (text : List Char) (i : Nat) :
    List Char :=
  pySlice text (i : Int) ((i : Int) + c.chunk_size)

/-- `CharacterTextSplitter.split`:
`for i in range(0, len(text), chunk_size - chunk_overlap): chunks.append(text[i:i+chunk_size])`. -/
def CharacterTextSplitter.split (c : CharacterTextSplitter) (text : List Char) :
    List (List Char) :=
  (pyRange text.length c.stride).map (c.chunkAt text)

/-- `CharacterTextSplitter.split_texts`: concatenate `split` over the texts
in order. -/
def CharacterTextSplitter.split_texts (c : CharacterTextSplitter) (texts : List (List Char)) :
    List (List Char) :=
  (texts.map c.split).flatten

/-- The tail of `split` from offset `j` on: the chunks the loop emits at
offsets `j, j + stride, …` (`splitFrom c text 0 = split c text`).  Proof
view of the loop, used for induction. -/
def CharacterTextSplitter.splitFrom (c : CharacterTextSplitter) (text : List Char) (j : Nat) :
    List (List Char) :=
  (List.range ((text.length - j + c.stride - 1) / c.stride)).map
    (fun k => c.chunkAt text (j + k * c.stride))

/-- The overlapped merge of the round-trip law, following the claim's words:
keep the first chunk whole, then append each later chunk's suffix after its
first `ov` characters. -/
def overlapMerge (ov : Nat) : List (List Char) → List Char
  | [] => []
  | chunk :: rest => chunk ++ (rest.map (List.drop ov)).flatten

/-- The spec's chunk-count formula, following the spec's words
(`ceil(max(len(T) - chunk_overlap, 0) / (chunk_size - chunk_overlap))` for a
non-empty text, `0` otherwise), stated over naturals for a configuration
with `chunk_size > chunk_overlap ≥ 0`.  For comparison with the code. -/
def specChunkCount (chunk_size chunk_overlap n : Nat) : Nat :=
  if n = 0 then 0
  else (max (n - chunk_overlap) 0 + (chunk_size - chunk_overlap) - 1) / (chunk_size - chunk_overlap)

/-- The default configuration of the spec's worked example. -/
def c1000 : CharacterTextSplitter := ⟨1000, 200, by decide⟩

/-- A configuration with a negative overlap, accepted by the constructor. -/
def cneg : CharacterTextSplitter := ⟨2, -1, by decide⟩

/-! ## Helper lemmas -/

theorem CharacterTextSplitter.stride_pos (c : CharacterTextSplitter) : 0 < c.stride := by
  have h := c.size_gt_overlap
  simp only [CharacterTextSplitter.stride]
  omega

theorem pyIdx_ofNat (n a : Nat) : pyIdx n (a : Int) = min a n := by
  unfold pyIdx
  split <;> omega

theorem take_min_self (l : List Char) (b : Nat) : l.take (min b l.length) = l.take b := by
  rcases Nat.le_total b l.length with h | h
  · rw [Nat.min_eq_left h]
  · rw [Nat.min_eq_right h, List.take_length, List.take_of_length_le h]

theorem drop_min_of_le (l : List Char) (a n : Nat) (h : l.length ≤ n) :
    l.drop (min a n) = l.drop a := by
  rcases Nat.le_total a n with h' | h'
  · rw [Nat.min_eq_left h']
  · rw [Nat.min_eq_right h', List.drop_eq_nil_of_le h, List.drop_eq_nil_of_le (by omega)]

theorem pySlice_natCast (l : List Char) (a b : Nat) :
    pySlice l (a : Int) (b : Int) = (l.drop a).take (b - a) := by
  unfold pySlice
  rw [pyIdx_ofNat, pyIdx_ofNat, take_min_self,
    drop_min_of_le _ a l.length (by simp [List.length_take])]
  rw [List.take_drop]
  rcases Nat.le_total a b with h | h
  · have e : a + (b - a) = b := by omega
    rw [e]
  · have e : b - a = 0 := by omega
    rw [e]
    rw [List.drop_eq_nil_of_le (by simp only [List.length_take]; omega),
      List.drop_eq_nil_of_le (by simp only [List.length_take]; omega)]

theorem chunkAt_eq (c : CharacterTextSplitter) (hcs : 0 ≤ c.chunk_size)
    (text : List Char) (i : Nat) :
    c.chunkAt text i = (text.drop i).take c.chunk_size.toNat := by
  unfold CharacterTextSplitter.chunkAt
  have h : ((i : Int) + c.chunk_size) = ((i + c.chunk_size.toNat : Nat) : Int) := by
    push_cast
    omega
  rw [h, pySlice_natCast]
  congr 1
  omega

theorem split_length (c : CharacterTextSplitter) (text : List Char) :
    (c.split text).length = (text.length + c.stride - 1) / c.stride := by
  simp [CharacterTextSplitter.split, pyRange]

theorem lt_ceil_iff (s n k : Nat) (hs : 0 < s) : k < (n + s - 1) / s ↔ k * s < n := by
  constructor
  · intro h
    have h2 : (k + 1) * s ≤ n + s - 1 := (Nat.le_div_iff_mul_le hs).mp h
    have h3 : (k + 1) * s = k * s + s := by ring
    omega
  · intro h
    have h3 : (k + 1) * s = k * s + s := by ring
    have h2 : k + 1 ≤ (n + s - 1) / s := (Nat.le_div_iff_mul_le hs).mpr (by omega)
    omega

theorem mem_split (c : CharacterTextSplitter) (text : List Char) (ch : List Char) :
    ch ∈ c.split text ↔ ∃ k, k * c.stride < text.length ∧ ch = c.chunkAt text (k * c.stride) := by
  simp only [CharacterTextSplitter.split, pyRange, List.map_map, List.mem_map, List.mem_range,
    Function.comp]
  constructor
  · rintro ⟨k, hk, rfl⟩
    exact ⟨k, (lt_ceil_iff _ _ _ c.stride_pos).mp hk, rfl⟩
  · rintro ⟨k, hk, rfl⟩
    exact ⟨k, (lt_ceil_iff _ _ _ c.stride_pos).mpr hk, rfl⟩

theorem getElem_split (c : CharacterTextSplitter) (text : List Char) (k : Nat)
    (h : k < (c.split text).length) :
    (c.split text)[k] = c.chunkAt text (k * c.stride) := by
  simp [CharacterTextSplitter.split, pyRange]

theorem split_eq_splitFrom (c : CharacterTextSplitter) (text : List Char) :
    c.split text = c.splitFrom text 0 := by
  simp [CharacterTextSplitter.split, CharacterTextSplitter.splitFrom, pyRange]

theorem ceil_step (s n j : Nat) (hs : 0 < s) (h : j < n) :
    (n - j + s - 1) / s = (n - (j + s) + s - 1) / s + 1 := by
  rcases Nat.le_total s (n - j) with h' | h'
  · have e : n - j + s - 1 = (n - (j + s) + s - 1) + s := by omega
    rw [e, Nat.add_div_right _ hs]
  · have e1 : n - (j + s) = 0 := by omega
    rw [e1]
    have e2 : (0 + s - 1) / s = 0 := Nat.div_eq_of_lt (by omega)
    rw [e2]
    exact Nat.div_eq_of_lt_le (by omega) (by omega)

theorem splitFrom_of_le (c : CharacterTextSplitter) (text : List Char) (j : Nat)
    (h : text.length ≤ j) : c.splitFrom text j = [] := by
  unfold CharacterTextSplitter.splitFrom
  have e : text.length - j = 0 := by omega
  rw [e]
  have e2 : (0 + c.stride - 1) / c.stride = 0 :=
    Nat.div_eq_of_lt (by have := c.stride_pos; omega)
  rw [e2]
  rfl

theorem splitFrom_cons (c : CharacterTextSplitter) (text : List Char) (j : Nat)
    (h : j < text.length) :
    c.splitFrom text j = c.chunkAt text j :: c.splitFrom text (j + c.stride) := by
  unfold CharacterTextSplitter.splitFrom
  rw [ceil_step c.stride text.length j c.stride_pos h]
  rw [List.range_succ_eq_map]
  simp only [List.map_cons, List.map_map, Function.comp]
  congr 1
  · simp
  · apply List.map_congr_left
    intro k _
    simp only [Function.comp_apply]
    congr 1
    have e : k.succ = k + 1 := rfl
    rw [e]
    ring

theorem splitFrom_induction (c : CharacterTextSplitter) (text : List Char) (P : Nat → Prop)
    (base : ∀ j, text.length ≤ j → P j)
    (step : ∀ j, j < text.length → P (j + c.stride) → P j) : ∀ j, P j := by
  have key : ∀ fuel j, text.length - j ≤ fuel → P j := by
    intro fuel
    induction fuel with
    | zero =>
      intro j hj
      exact base j (by omega)
    | succ f ih =>
      intro j hj
      by_cases hlt : j < text.length
      · exact step j hlt (ih (j + c.stride) (by have := c.stride_pos; omega))
      · exact base j (by omega)
  intro j
  exact key (text.length - j) j le_rfl

/-! ## Claims -/

/-- C8: constructing the chunker fails with the configuration error exactly
when `chunk_size ≤ chunk_overlap`; for every pair with
`chunk_size > chunk_overlap`, construction succeeds and stores exactly those
two values. -/
theorem claim_C8 (chunk_size chunk_overlap : Int) :
    (chunk_size ≤ chunk_overlap →
      CharacterTextSplitter.init chunk_size chunk_overlap =
        .error ("Chunk size must be greater than chunk overlap".toList))
    ∧ (∀ h : chunk_overlap < chunk_size,
        CharacterTextSplitter.init chunk_size chunk_overlap =
          .ok ⟨chunk_size, chunk_overlap, h⟩) := by
  constructor
  · intro h
    unfold CharacterTextSplitter.init
    rw [dif_neg (by omega)]
  · intro h
    unfold CharacterTextSplitter.init
    rw [dif_pos h]

/-- Witness for C8 at the accepted pair `(5, 2)` and the rejected pair
`(2, 5)`. -/
theorem claim_C8_witness :
    CharacterTextSplitter.init 5 2 = .ok ⟨5, 2, by decide⟩
    ∧ CharacterTextSplitter.init 2 5 =
        .error ("Chunk size must be greater than chunk overlap".toList) :=
  ⟨(claim_C8 5 2).2 (by decide), (claim_C8 2 5).1 (by decide)⟩

/-- C9 (implicit): the constructor performs no non-negativity check on
`chunk_overlap` — any pair with `chunk_overlap < 0 < chunk_size - chunk_overlap`
is accepted; the stride then strictly exceeds `chunk_size`; and for the
configuration `chunk_size = 2, chunk_overlap = -1` over `"abcd"` the chunks
omit the character `'c'`. -/
theorem claim_C9 :
    (∀ (chunk_size chunk_overlap : Int) (h : chunk_overlap < chunk_size),
        chunk_overlap < 0 →
        CharacterTextSplitter.init chunk_size chunk_overlap =
          .ok ⟨chunk_size, chunk_overlap, h⟩)
    ∧ (∀ c : CharacterTextSplitter, c.chunk_overlap < 0 →
        c.chunk_size < c.chunk_size - c.chunk_overlap)
    ∧ ('c' ∈ "abcd".toList ∧ ∀ ch ∈ cneg.split ("abcd".toList), 'c' ∉ ch) := by
  refine ⟨?_, ?_, ?_⟩
  · intro cs co h _
    unfold CharacterTextSplitter.init
    rw [dif_pos h]
  · intro c h
    omega
  · decide

/-- Witness for C9 at `chunk_size = 2`, `chunk_overlap = -1`. -/
theorem claim_C9_witness :
    CharacterTextSplitter.init 2 (-1) = .ok ⟨2, -1, by decide⟩ :=
  claim_C9.1 2 (-1) (by decide) (by decide)

/-- C4 (code bug): with the PDF capability available, loading a directory
holding one readable text file succeeds; with the capability absent, the
same call fails with `ImportError`, because `PDFFileLoader.load` raises it
and the `except ValueError` of directory mode does not catch it.  So the
absence of the PDF capability does affect a text-only path. -/
theorem claim_C4 :
    DocumentLoader.load_documents true ("d".toList)
        (.dir [("a.txt".toList, .txt (some ("hello".toList)))])
      = .ok [("hello".toList)]
    ∧ DocumentLoader.load_documents false ("d".toList)
        (.dir [("a.txt".toList, .txt (some ("hello".toList)))])
      = .error (.importError
          ("pypdf is required to read PDF files. Install it with: pip install pypdf".toList)) := by
  constructor
  · decide
  · decide

/-- C5 (code bug): reading a single encrypted PDF does fail, but its
encryption `ValueError` is caught by the enclosing `except Exception` and
re-raised wrapped in the uniform "Error reading PDF file …" message, so the
distinct encryption condition is subsumed into the uniform wrapper. -/
theorem claim_C5 :
    PDFFileLoader.load_file ("e.pdf".toList) (.pdf ⟨true, [("hi".toList)]⟩)
      = .error (.valueError
          ("Error reading PDF file e.pdf: PDF file e.pdf is password-protected and cannot be read.".toList))
    ∧ PDFFileLoader.load_file ("e.pdf".toList) (.pdf ⟨true, [("hi".toList)]⟩)
      ≠ .error (.valueError
          ("PDF file e.pdf is password-protected and cannot be read.".toList)) := by
  constructor
  · decide
  · decide

/-- C6: a batch PDF scan over a directory holding exactly one encrypted PDF
and one valid readable PDF (in either order) does not raise, skips the
encrypted file, and returns exactly one document: the valid PDF's extracted
text. -/
theorem claim_C6 (n₁ n₂ : List Char) (e v : PdfDoc)
    (h₁ : endsWith n₁ (".pdf".toList) = true) (h₂ : endsWith n₂ (".pdf".toList) = true)
    (he : e.encrypted = true) (hv : v.encrypted = false)
    (hr : pyStrip (PDFFileLoader.extract_full_text v.pages) ≠ []) :
    PDFFileLoader.load_directory [(n₁, .pdf e), (n₂, .pdf v)]
      = [pyStrip (PDFFileLoader.extract_full_text v.pages)]
    ∧ PDFFileLoader.load_directory [(n₂, .pdf v), (n₁, .pdf e)]
      = [pyStrip (PDFFileLoader.extract_full_text v.pages)] := by
  have e4 : ".pdf".toList = ['.', 'p', 'd', 'f'] := rfl
  rw [e4] at h₁ h₂
  unfold PDFFileLoader.load_directory
  simp [h₁, h₂, he, hv, hr]

/-- Witness for C6: directory with the encrypted `a.pdf` and the readable
`b.pdf` whose single page is `"x"`. -/
theorem claim_C6_witness :
    PDFFileLoader.load_directory
        [("a.pdf".toList, .pdf ⟨true, []⟩), ("b.pdf".toList, .pdf ⟨false, [("x".toList)]⟩)]
      = [pyStrip (PDFFileLoader.extract_full_text [("x".toList)])]
    ∧ PDFFileLoader.load_directory
        [("b.pdf".toList, .pdf ⟨false, [("x".toList)]⟩), ("a.pdf".toList, .pdf ⟨true, []⟩)]
      = [pyStrip (PDFFileLoader.extract_full_text [("x".toList)])] :=
  claim_C6 ("a.pdf".toList) ("b.pdf".toList) ⟨true, []⟩ ⟨false, [("x".toList)]⟩
    (by decide) (by decide) rfl rfl (by decide)

/-- `read_text` either succeeds or raises a `ValueError`
(a `UnicodeDecodeError`), never an `ImportError`. -/
theorem read_text_cases (content : FileContent) :
    (∃ s, TextFileLoader.read_text content = .ok s)
    ∨ (∃ m, TextFileLoader.read_text content = .error (.valueError m)) := by
  cases content with
  | txt d =>
    cases d with
    | some s => exact .inl ⟨s, rfl⟩
    | none => exact .inr ⟨_, rfl⟩
  | pdf doc => exact .inr ⟨_, rfl⟩
  | other => exact .inr ⟨_, rfl⟩

/-- The text directory walker only ever raises `ValueError`s. -/
theorem txt_load_directory_no_import :
    ∀ (entries : List (List Char × FileContent)) (m : List Char),
      TextFileLoader.load_directory entries ≠ .error (.importError m)
  | [], m => by simp [TextFileLoader.load_directory]
  | (name, content) :: rest, m => by
    simp only [TextFileLoader.load_directory]
    by_cases h : endsWith name (".txt".toList) = true
    · rw [if_pos h]
      rcases read_text_cases content with ⟨s, hs⟩ | ⟨m', hm⟩
      · rw [hs]
        cases hr : TextFileLoader.load_directory rest with
        | ok ds => simp [Except.map]
        | error e' =>
          simp only [Except.map]
          intro hcon
          have he' : e' = .importError m := by
            simpa using hcon
          exact txt_load_directory_no_import rest m (by rw [hr, he'])
      · rw [hm]
        simp
    · rw [if_neg h]
      exact txt_load_directory_no_import rest m

/-- `TextFileLoader.load` only ever raises `ValueError`s. -/
theorem txt_load_no_import (path : List Char) (t : Target) (m : List Char) :
    TextFileLoader.load path t ≠ .error (.importError m) := by
  cases t with
  | dir entries => exact txt_load_directory_no_import entries m
  | file content =>
    simp only [TextFileLoader.load]
    by_cases h : endsWith path (".txt".toList) = true
    · rw [if_pos h]
      rcases read_text_cases content with ⟨s, hs⟩ | ⟨m', hm⟩
      · simp [TextFileLoader.load_file, hs, Except.map]
      · simp [TextFileLoader.load_file, hm, Except.map]
    · rw [if_neg h]
      simp
  | missing => simp [TextFileLoader.load]

/-- The claim's reading of a failed walker: it contributes zero documents. -/
def suppress (r : Except PyErr (List (List Char))) : List (List Char) :=
  match r with
  | .ok ds => ds
  | .error _ => []

/-- C7: with the PDF capability available, the unified loader's directory
mode treats a failed per-format walker as contributing zero documents,
fails with the no-readable-documents error exactly when the combined
text-plus-PDF sequence is empty, and otherwise returns that combined
sequence with the text documents first. -/
theorem claim_C7 (path : List Char) (entries : List (List Char × FileContent)) :
    DocumentLoader.load_documents true path (.dir entries) =
      (if suppress (TextFileLoader.load path (.dir entries))
            ++ PDFFileLoader.load_directory entries = [] then
        .error (.valueError ("No readable .txt or .pdf files found in directory: ".toList ++ path))
      else
        .ok (suppress (TextFileLoader.load path (.dir entries))
              ++ PDFFileLoader.load_directory entries)) := by
  simp only [DocumentLoader.load_documents, TextFileLoader.load_documents,
    PDFFileLoader.load_documents, PDFFileLoader.load]
  cases ht : TextFileLoader.load path (.dir entries) with
  | ok ds =>
    simp [DocumentLoader.extendCaught, suppress, ht, List.isEmpty_iff]
  | error e =>
    cases e with
    | importError m => exact absurd ht (txt_load_no_import path (.dir entries) m)
    | valueError m =>
      simp [DocumentLoader.extendCaught, suppress, ht, List.isEmpty_iff]

/-- C1 counterexample: with the default configuration
(`chunk_size = 1000`, `chunk_overlap = 200`) a 100-character text yields one
chunk, while the spec's formula
`ceil(max(len(T) - chunk_overlap, 0) / (chunk_size - chunk_overlap))`
yields zero. -/
theorem claim_C1_counterexample :
    (c1000.split (List.replicate 100 'a')).length ≠
      specChunkCount 1000 200 (List.replicate 100 'a').length := by
  decide

/-- C1 (amended): for every configuration with
`chunk_size > chunk_overlap ≥ 0` the number of chunks is
`ceil(len(T) / (chunk_size - chunk_overlap))` (which is `0` for an empty
text); with `chunk_size = 1000`, `chunk_overlap = 200`, a 3000-character
text yields four chunks at offsets 0, 800, 1600, 2400, the last of
length 600. -/
theorem claim_C1 :
    (∀ c : CharacterTextSplitter, 0 ≤ c.chunk_overlap → ∀ text : List Char,
        (c.split text).length = (text.length + c.stride - 1) / c.stride)
    ∧ (∀ T : List Char, T.length = 3000 →
        c1000.split T =
          [T.take 1000, (T.drop 800).take 1000, (T.drop 1600).take 1000, (T.drop 2400).take 1000]
        ∧ ((T.drop 2400).take 1000).length = 600) := by
  constructor
  · intro c _ text
    exact split_length c text
  · intro T hT
    constructor
    · have hs : c1000.stride = 800 := by decide
      unfold CharacterTextSplitter.split
      rw [hT, hs]
      have hr : pyRange 3000 800 = [0, 800, 1600, 2400] := by decide
      rw [hr]
      simp only [List.map_cons, List.map_nil]
      rw [chunkAt_eq c1000 (by decide) T 0, chunkAt_eq c1000 (by decide) T 800,
        chunkAt_eq c1000 (by decide) T 1600, chunkAt_eq c1000 (by decide) T 2400]
      have hcs : c1000.chunk_size.toNat = 1000 := by decide
      rw [hcs]
      simp
    · rw [List.length_take, List.length_drop, hT]
      decide

/-- Witness for C1: the count law at the default configuration over a
two-character text, and the worked example over a 3000-character text. -/
theorem claim_C1_witness :
    ((c1000.split ("ab".toList)).length =
      (("ab".toList).length + c1000.stride - 1) / c1000.stride)
    ∧ ((List.replicate 3000 'a').length = 3000)
    ∧ (c1000.split (List.replicate 3000 'a') =
        [(List.replicate 3000 'a').take 1000,
         ((List.replicate 3000 'a').drop 800).take 1000,
         ((List.replicate 3000 'a').drop 1600).take 1000,
         ((List.replicate 3000 'a').drop 2400).take 1000]
      ∧ (((List.replicate 3000 'a').drop 2400).take 1000).length = 600) :=
  ⟨claim_C1.1 c1000 (by decide) ("ab".toList), by rw [List.length_replicate],
    claim_C1.2 (List.replicate 3000 'a') (by rw [List.length_replicate])⟩

/-- C2: for every configuration with `chunk_size > chunk_overlap > 0` and
every text, overlap-merging the chunks of `split` (first chunk whole, then
each later chunk's suffix after its first `chunk_overlap` characters)
reconstructs the text exactly. -/
theorem claim_C2 (c : CharacterTextSplitter) (hco : 0 < c.chunk_overlap)
    (text : List Char) :
    overlapMerge c.chunk_overlap.toNat (c.split text) = text := by
  have hgt := c.size_gt_overlap
  have hcs : 0 ≤ c.chunk_size := by omega
  have hkey : c.chunk_overlap.toNat + c.stride = c.chunk_size.toNat := by
    simp only [CharacterTextSplitter.stride]
    omega
  have hspos := c.stride_pos
  have tail : ∀ j,
      ((c.splitFrom text j).map (List.drop c.chunk_overlap.toNat)).flatten
        = text.drop (j + c.chunk_overlap.toNat) := by
    refine splitFrom_induction c text _ ?_ ?_
    · intro j hj
      rw [splitFrom_of_le c text j hj]
      simp only [List.map_nil, List.flatten_nil]
      exact (List.drop_eq_nil_of_le (by omega)).symm
    · intro j hj ih
      rw [splitFrom_cons c text j hj]
      simp only [List.map_cons, List.flatten_cons]
      rw [ih, chunkAt_eq c hcs]
      have e1 : ((text.drop j).take c.chunk_size.toNat).drop c.chunk_overlap.toNat
          = ((text.drop j).drop c.chunk_overlap.toNat).take
              (c.chunk_size.toNat - c.chunk_overlap.toNat) := by
        have h := List.take_drop c.chunk_overlap.toNat
          (c.chunk_size.toNat - c.chunk_overlap.toNat) (text.drop j)
        rw [h]
        congr 2
        omega
      rw [e1, List.drop_drop]
      have e2 : c.chunk_size.toNat - c.chunk_overlap.toNat = c.stride := by omega
      have e4 : j + c.stride + c.chunk_overlap.toNat
          = c.stride + (j + c.chunk_overlap.toNat) := by omega
      rw [e2, e4]
      exact List.drop_take_append_drop' text (j + c.chunk_overlap.toNat) c.stride
  rcases Nat.eq_zero_or_pos text.length with h0 | hpos
  · have hnil : text = [] := List.length_eq_zero.mp h0
    subst hnil
    rw [split_eq_splitFrom, splitFrom_of_le c _ 0 (by simp)]
    rfl
  · rw [split_eq_splitFrom, splitFrom_cons c text 0 hpos]
    show c.chunkAt text 0
        ++ ((c.splitFrom text (0 + c.stride)).map (List.drop c.chunk_overlap.toNat)).flatten
      = text
    rw [tail (0 + c.stride), chunkAt_eq c hcs]
    simp only [List.drop_zero]
    have e5 : 0 + c.stride + c.chunk_overlap.toNat = c.chunk_size.toNat := by omega
    rw [e5]
    exact List.take_append_drop _ _

/-- Witness for C2 at `chunk_size = 3`, `chunk_overlap = 1` over `"abcde"`. -/
theorem claim_C2_witness :
    overlapMerge ((⟨3, 1, by decide⟩ : CharacterTextSplitter).chunk_overlap.toNat)
        ((⟨3, 1, by decide⟩ : CharacterTextSplitter).split ("abcde".toList))
      = "abcde".toList :=
  claim_C2 ⟨3, 1, by decide⟩ (by decide) ("abcde".toList)

/-- C3 counterexample: with `chunk_size = 5`, `chunk_overlap = 2`, the text
`"abcd"` splits into two chunks whose first — not the last — has length
4 ≠ 5, so not every non-final chunk has length exactly `chunk_size`. -/
theorem claim_C3_counterexample :
    ¬ (∀ (k : Nat)
        (hk : k < (((⟨5, 2, by decide⟩ : CharacterTextSplitter)).split ("abcd".toList)).length),
        k + 1 < (((⟨5, 2, by decide⟩ : CharacterTextSplitter)).split ("abcd".toList)).length →
        ((((⟨5, 2, by decide⟩ : CharacterTextSplitter)).split ("abcd".toList)).get
            ⟨k, hk⟩).length = 5) := by
  decide

/-- C3 (amended): for every configuration with
`chunk_size > chunk_overlap ≥ 0`, every chunk of `split` has length at most
`chunk_size`, and every chunk except possibly the last has length at least
the stride `chunk_size - chunk_overlap` (it may still fall short of
`chunk_size` when the text ends inside the window). -/
theorem claim_C3 (c : CharacterTextSplitter) (hco : 0 ≤ c.chunk_overlap)
    (text : List Char) :
    (∀ ch ∈ c.split text, ch.length ≤ c.chunk_size.toNat)
    ∧ (∀ (k : Nat) (hk : k < (c.split text).length),
        k + 1 < (c.split text).length →
        c.stride ≤ ((c.split text).get ⟨k, hk⟩).length) := by
  have hgt := c.size_gt_overlap
  have hcs : 0 ≤ c.chunk_size := by omega
  constructor
  · intro ch hch
    rcases (mem_split c text ch).mp hch with ⟨k, hk, rfl⟩
    rw [chunkAt_eq c hcs, List.length_take]
    exact Nat.min_le_left _ _
  · intro k hk hk1
    have hlen := split_length c text
    have hk2 : (k + 1) * c.stride < text.length := by
      rw [hlen] at hk1
      exact (lt_ceil_iff _ _ _ c.stride_pos).mp hk1
    have hget : (c.split text).get ⟨k, hk⟩ = c.chunkAt text (k * c.stride) := by
      rw [List.get_eq_getElem]
      exact getElem_split c text k hk
    rw [hget, chunkAt_eq c hcs, List.length_take, List.length_drop]
    have e : (k + 1) * c.stride = k * c.stride + c.stride := by ring
    have hsz : c.stride ≤ c.chunk_size.toNat := by
      simp only [CharacterTextSplitter.stride]
      omega
    omega

/-- Witness for C3 at `chunk_size = 3`, `chunk_overlap = 1` over `"abcd"`. -/
theorem claim_C3_witness :
    (∀ ch ∈ (((⟨3, 1, by decide⟩ : CharacterTextSplitter)).split ("abcd".toList)),
        ch.length ≤ ((⟨3, 1, by decide⟩ : CharacterTextSplitter)).chunk_size.toNat)
    ∧ (∀ (k : Nat)
        (hk : k < (((⟨3, 1, by decide⟩ : CharacterTextSplitter)).split ("abcd".toList)).length),
        k + 1 < (((⟨3, 1, by decide⟩ : CharacterTextSplitter)).split ("abcd".toList)).length →
        ((⟨3, 1, by decide⟩ : CharacterTextSplitter)).stride ≤
          ((((⟨3, 1, by decide⟩ : CharacterTextSplitter)).split ("abcd".toList)).get
            ⟨k, hk⟩).length) :=
  claim_C3 ⟨3, 1, by decide⟩ (by decide) ("abcd".toList)

/-- C10 (implicit): for every configuration with
`chunk_size > chunk_overlap ≥ 0`, every chunk returned by `split` (and
hence by `split_texts`) is non-empty, because every emitted window starts
strictly before the end of the text. -/
theorem claim_C10 (c : CharacterTextSplitter) (hco : 0 ≤ c.chunk_overlap) :
    (∀ text : List Char, ∀ ch ∈ c.split text, ch ≠ [])
    ∧ (∀ texts : List (List Char), ∀ ch ∈ c.split_texts texts, ch ≠ []) := by
  have hgt := c.size_gt_overlap
  have hcs : 0 ≤ c.chunk_size := by omega
  have main : ∀ text : List Char, ∀ ch ∈ c.split text, ch ≠ [] := by
    intro text ch hch
    rcases (mem_split c text ch).mp hch with ⟨k, hk, rfl⟩
    rw [chunkAt_eq c hcs]
    refine List.ne_nil_of_length_pos ?_
    rw [List.length_take, List.length_drop]
    omega
  refine ⟨main, ?_⟩
  intro texts ch hch
  simp only [CharacterTextSplitter.split_texts] at hch
  rw [List.mem_flatten] at hch
  rcases hch with ⟨l, hl, hchl⟩
  rw [List.mem_map] at hl
  rcases hl with ⟨text, _, rfl⟩
  exact main text ch hchl

/-- Witness for C10 at the default configuration. -/
theorem claim_C10_witness :
    (∀ text : List Char, ∀ ch ∈ c1000.split text, ch ≠ [])
    ∧ (∀ texts : List (List Char), ∀ ch ∈ c1000.split_texts texts, ch ≠ []) :=
  claim_C10 c1000 (by decide)
